import Mathlib

/-!
Shallow embedding of the playlist-management core of the `discord_music_bot`
repository (`src/discord_bot/cogs/playlist.py` and
`src/discord_bot/utils/sources/__init__.py`).

The in-memory store `self.playlists` is a Python dict mapping guild keys to
dicts mapping playlist names to lists of track-URL strings.  Python dicts
preserve insertion order, so dicts are embedded as association lists.  A
crucial point of fidelity: the code sometimes indexes the store with
`str(interaction.guild_id)` and sometimes with the raw integer
`interaction.guild_id`; in Python a string key and an integer key are never
equal, so store keys are embedded as a sum `PyKey` of the two.

Each slash-command body becomes a total function from the store and its
arguments to an `OpResult`: the store after the call (mutations happen in
place and are not rolled back by a later exception), whether
`__save_playlists` ran during the call, and the observable outcome (a message
or embed sent, or an uncaught `KeyError`/`IndexError`).
-/

set_option autoImplicit false

/-- A Python dict key as used for the playlists store: either a string
(`str(interaction.guild_id)`, playlist names, JSON object keys) or an int
(the raw `interaction.guild_id`).  Distinct constructors are never equal,
matching Python where `"42" != 42`. -/
inductive PyKey where
  | s (v : String)
  | i (v : Int)
deriving DecidableEq, Repr

/-- An ordered sequence of stored track-URL strings. -/
abbrev TrackList := List String

/-- One guild's playlists: dict from playlist name to its track list,
in insertion order. -/
abbrev GuildMap := List (String × TrackList)

/-- The whole `self.playlists` store: dict from guild key to `GuildMap`,
in insertion order. -/
abbrev Store := List (PyKey × GuildMap)

/-- `str(interaction.guild_id)` as a store key. -/
def strKey (gid : Int) : PyKey := PyKey.s (toString gid)

/-- Python `d[k]` as a lookup: the value at the first matching key, or
`none` (which the call sites turn into a `KeyError`). -/
def dGet {α β : Type} [DecidableEq α] (d : List (α × β)) (k : α) : Option β :=
  match d with
  | [] => none
  | p :: rest => if p.1 = k then some p.2 else dGet rest k

/-- Python `k in d` on a dict: key membership. -/
def dContains {α β : Type} [DecidableEq α] (d : List (α × β)) (k : α) : Bool :=
  match d with
  | [] => false
  | p :: rest => if p.1 = k then true else dContains rest k

/-- Python `d[k] = v`: update an existing key in place (keeping its
position), otherwise append the new pair at the end. -/
def dSet {α β : Type} [DecidableEq α] (d : List (α × β)) (k : α) (v : β) :
    List (α × β) :=
  if dContains d k then d.map (fun p => if p.1 = k then (k, v) else p)
  else d ++ [(k, v)]

/-- Python `del d[k]` / `d.pop(k)` after the key has been checked present:
drop every pair with that key. -/
def dDel {α β : Type} [DecidableEq α] (d : List (α × β)) (k : α) :
    List (α × β) :=
  match d with
  | [] => []
  | p :: rest => if p.1 = k then dDel rest k else p :: dDel rest k

/-- Normalise a Python sequence index: negative indices count from the end;
`none` when out of range (an `IndexError` at the call sites). -/
def pyIdx (n : Nat) (i : Int) : Option Nat :=
  let j : Int := if i < 0 then i + (n : Int) else i
  if 0 ≤ j ∧ j < (n : Int) then some j.toNat else none

/-- Python `l[i]` on a list. -/
def pyGetAt {α : Type} (l : List α) (i : Int) : Option α :=
  (pyIdx l.length i).bind (fun j => l[j]?)

/-- Python `del l[i]` on a list. -/
def pyDelAt {α : Type} (l : List α) (i : Int) : Option (List α) :=
  (pyIdx l.length i).map (fun j => l.eraseIdx j)

/-- `Track` dataclass from `utils/sources/__init__.py`.  The
`FFmpegPCMAudio` stream handle is opaque and never inspected by the
playlist code, so it is embedded as `Unit`. -/
structure Track where
  title : String
  duration : Int
  webpage_url : String
  audio_url : Unit
  thumbnail : Option String
deriving DecidableEq, Repr

/-- `Playlist` dataclass from `utils/sources/__init__.py` (the enriched
data-model type, distinct from the stored URL lists). -/
structure Playlist where
  title : String
  webpage_url : String
  tracks : List Track

/-- `Playlist.duration` property: `sum([song.duration for song in self.tracks])`. -/
def Playlist.duration (p : Playlist) : Int :=
  (p.tracks.map (fun song => song.duration)).sum

/-- An uncaught Python exception escaping a command body. -/
inductive PyError where
  | keyError
  | indexError
deriving DecidableEq, Repr

/-- The observable response of one command invocation. -/
inductive Outcome where
  /-- `interaction.response.send_message(text)` / `followup.send(text)`. -/
  | sent (text : String)
  /-- The `/playlist list` embed: one `(name, track_count)` entry per
  playlist, rendered as "i. name - count tracks" lines in stored order. -/
  | sentListEmbed (entries : List (String × Nat))
  /-- The `/playlist add` success embed, built from the resolved track. -/
  | sentAddEmbed (name : String) (track : Track)
  /-- An uncaught exception. -/
  | raised (e : PyError)
deriving DecidableEq, Repr

/-- Result of one command invocation: store afterwards, whether
`__save_playlists` was called, and the observable outcome. -/
structure OpResult where
  store : Store
  saved : Bool
  outcome : Outcome
deriving DecidableEq, Repr

/-- Python truthiness of `self.playlists.get(interaction.guild_id)`:
`None` and the empty dict are falsy. -/
def pyFalsy (o : Option GuildMap) : Bool :=
  match o with
  | none => true
  | some g => g.isEmpty

/-- `PlaylistGroup.list_playlist` (playlist.py lines 66-85):
`if not self.playlists:` tests the WHOLE store for emptiness, then the
embed comprehension indexes `self.playlists[guild_id]`, a `KeyError`
when this guild has no entry. -/
def list_playlist (st : Store) (gid : Int) : OpResult :=
  if st.isEmpty then
    ⟨st, false,
      .sent "No saved playlists found. Create your own by with `playlist create <name>`"⟩
  else
    match dGet st (strKey gid) with
    | none => ⟨st, false, .raised .keyError⟩
    | some g => ⟨st, false, .sentListEmbed (g.map (fun p => (p.1, p.2.length)))⟩

/-- `PlaylistGroup.create_playlist` (playlist.py lines 87-100):
`if name in self.playlists:` tests `name` against the OUTER dict (guild
keys); `if not self.playlists.get(interaction.guild_id):` uses the raw int
key, so it is always falsy in states whose keys are strings, and
`self.playlists[guild_id] = {}` then replaces the guild's whole mapping. -/
def create_playlist (st : Store) (gid : Int) (name : String) : OpResult :=
  if dContains st (PyKey.s name) then
    ⟨st, false, .sent "Playlist already exists."⟩
  else
    let st1 := if pyFalsy (dGet st (PyKey.i gid)) then dSet st (strKey gid) [] else st
    match dGet st1 (strKey gid) with
    | none => ⟨st1, false, .raised .keyError⟩
    | some g =>
        ⟨dSet st1 (strKey gid) (dSet g name []), true,
          .sent ("Created playlist " ++ name ++ ".")⟩

/-- `PlaylistGroup.delete_playlist` (playlist.py lines 102-115):
`if name not in self.playlists:` tests `name` against the OUTER dict, then
`del self.playlists[guild_id][name]` indexes the outer dict by the string
guild key and deletes the inner entry. -/
def delete_playlist (st : Store) (gid : Int) (name : String) : OpResult :=
  if ¬ dContains st (PyKey.s name) then
    ⟨st, false, .sent "Playlist does not exist."⟩
  else
    match dGet st (strKey gid) with
    | none => ⟨st, false, .raised .keyError⟩
    | some g =>
        if ¬ dContains g name then ⟨st, false, .raised .keyError⟩
        else
          ⟨dSet st (strKey gid) (dDel g name), true,
            .sent ("Deleted playlist " ++ name ++ ".")⟩

/-- `PlaylistGroup.rename_playlist` (playlist.py lines 117-140):
`if name not in self.playlists:` tests the OUTER dict; the duplicate check
and the pop/reinsert both index the store with the raw int
`interaction.guild_id`. -/
def rename_playlist (st : Store) (gid : Int) (name new_name : String) : OpResult :=
  if ¬ dContains st (PyKey.s name) then
    ⟨st, false, .sent "Playlist does not exist."⟩
  else
    match dGet st (PyKey.i gid) with
    | none => ⟨st, false, .raised .keyError⟩
    | some g =>
        if dContains g new_name then
          ⟨st, false,
            .sent ("A playlist with the name " ++ new_name ++ " already exists.")⟩
        else
          match dGet g name with
          | none => ⟨st, false, .raised .keyError⟩
          | some tracks =>
              ⟨dSet st (PyKey.i gid) (dSet (dDel g name) new_name tracks), true,
                .sent ("Renamed playlist " ++ name ++ " to " ++ new_name ++ ".")⟩

/-- `PlaylistGroup.add_to_playlist` (playlist.py lines 142-173):
both the membership test and the append index the store with the raw int
`interaction.guild_id`; the resolver (`YTSource.fetch_track_by_url`, an
external collaborator) is a parameter returning `Option Track`. -/
def add_to_playlist (resolve : String → Option Track) (st : Store) (gid : Int)
    (name track_url : String) : OpResult :=
  match dGet st (PyKey.i gid) with
  | none => ⟨st, false, .raised .keyError⟩
  | some g =>
      if ¬ dContains g name then ⟨st, false, .sent "Playlist does not exist."⟩
      else
        match resolve track_url with
        | none => ⟨st, false, .sent "Track not found."⟩
        | some track =>
            match dGet g name with
            | none => ⟨st, false, .raised .keyError⟩
            | some tracks =>
                ⟨dSet st (PyKey.i gid) (dSet g name (tracks ++ [track_url])), true,
                  .sentAddEmbed name track⟩

/-- `PlaylistGroup.remove_from_playlist` (playlist.py lines 175-198):
the range check is the chained comparison `0 > track_id - 1 > len(...)`,
which is never true; the deletion uses Python index semantics (negative
indices wrap); an emptied playlist is deleted from the guild mapping; the
store is saved; and only then does the success message re-read
`self.playlists[guild_id][name][track_id - 1]`, which can raise
`KeyError`/`IndexError` or name the wrong track. -/
def remove_from_playlist (st : Store) (gid : Int) (name : String)
    (track_id : Int) : OpResult :=
  match dGet st (strKey gid) with
  | none => ⟨st, false, .raised .keyError⟩
  | some g =>
      if ¬ dContains g name then ⟨st, false, .sent "Playlist does not exist."⟩
      else
        match dGet g name with
        | none => ⟨st, false, .raised .keyError⟩
        | some tracks =>
            if 0 > track_id - 1 ∧ track_id - 1 > (tracks.length : Int) then
              ⟨st, false, .sent "Track not found in playlist."⟩
            else
              match pyDelAt tracks (track_id - 1) with
              | none => ⟨st, false, .raised .indexError⟩
              | some tracks1 =>
                  let g2 := if tracks1.isEmpty then dDel (dSet g name tracks1) name
                            else dSet g name tracks1
                  let st1 := dSet st (strKey gid) g2
                  match dGet g2 name with
                  | none => ⟨st1, true, .raised .keyError⟩
                  | some tracks2 =>
                      match pyGetAt tracks2 (track_id - 1) with
                      | none => ⟨st1, true, .raised .indexError⟩
                      | some track =>
                          ⟨st1, true,
                            .sent ("Removed " ++ track ++ " from the playlist "
                              ++ name ++ ".")⟩

/-- Sum of the `duration` fields of a track list, by explicit recursion
(the mathematical reading of the `Playlist.duration` property). -/
def sumDurations : List Track → Int
  | [] => 0
  | t :: ts => t.duration + sumDurations ts

/-- A JSON document, the shape `json.dump` writes and `json.load` reads. -/
inductive Json where
  | null
  | bool (b : Bool)
  | num (n : Int)
  | str (s : String)
  | arr (elems : List Json)
  | obj (fields : List (String × Json))

/-- Read a JSON array of strings back as a track list (shape check). -/
def decodeTracks : List Json → Option TrackList
  | [] => some []
  | Json.str s :: rest => (decodeTracks rest).map (fun t => s :: t)
  | _ => none

/-- Read a JSON object of string arrays back as one guild's playlists. -/
def decodeGuildEntries : List (String × Json) → Option GuildMap
  | [] => some []
  | (k, Json.arr xs) :: rest =>
      match decodeTracks xs, decodeGuildEntries rest with
      | some t, some g => some ((k, t) :: g)
      | _, _ => none
  | _ => none

/-- Read a JSON object of objects back as the whole store.  JSON object
keys are strings, so every guild key comes back as `PyKey.s`. -/
def decodeStoreEntries : List (String × Json) → Option Store
  | [] => some []
  | (k, Json.obj fs) :: rest =>
      match decodeGuildEntries fs, decodeStoreEntries rest with
      | some g, some s => some ((PyKey.s k, g) :: s)
      | _, _ => none
  | _ => none

/-- `PlaylistGroup.__load_playlists` (playlist.py lines 54-59), the parsing
half: interpret a parsed JSON document as a `Store`; `none` models a
document that does not have the expected shape. -/
def json_load : Json → Option Store
  | Json.obj fs => decodeStoreEntries fs
  | _ => none

/-- How `json.dump` renders a store key: string keys as themselves, int
keys coerced to their decimal string. -/
def encodeKeyStr : PyKey → String
  | PyKey.s v => v
  | PyKey.i v => toString v

/-- `PlaylistGroup.__save_playlists` (playlist.py lines 61-64), the
serialization half: the JSON document `json.dump(self.playlists, f)`
writes. -/
def json_dump (st : Store) : Json :=
  Json.obj (st.map (fun p =>
    (encodeKeyStr p.1,
      Json.obj (p.2.map (fun q => (q.1, Json.arr (q.2.map Json.str)))))))

/-- A store key the persistence layer can reproduce: a string key. -/
def isStrKey : PyKey → Bool
  | PyKey.s _ => true
  | PyKey.i _ => false

/-- All guild keys of the store are string keys. -/
def strKeys (st : Store) : Bool := st.all (fun p => isStrKey p.1)

/-- The stores reachable through the service's operations: the empty
initial store, any store read back from persisted JSON, and the result
store of any command invocation on a reachable store. -/
inductive Reachable : Store → Prop where
  | empty : Reachable []
  | loaded (j : Json) (st : Store) : json_load j = some st → Reachable st
  | listed (st : Store) (gid : Int) : Reachable st →
      Reachable (list_playlist st gid).store
  | created (st : Store) (gid : Int) (name : String) : Reachable st →
      Reachable (create_playlist st gid name).store
  | deleted (st : Store) (gid : Int) (name : String) : Reachable st →
      Reachable (delete_playlist st gid name).store
  | renamed (st : Store) (gid : Int) (name new_name : String) : Reachable st →
      Reachable (rename_playlist st gid name new_name).store
  | added (resolve : String → Option Track) (st : Store) (gid : Int)
      (name track_url : String) : Reachable st →
      Reachable (add_to_playlist resolve st gid name track_url).store
  | removed (st : Store) (gid : Int) (name : String) (track_id : Int) :
      Reachable st → Reachable (remove_from_playlist st gid name track_id).store

theorem dContains_of_dGet {α β : Type} [DecidableEq α] {d : List (α × β)}
    {k : α} {v : β} (h : dGet d k = some v) : dContains d k = true := by
  induction d with
  | nil => simp [dGet] at h
  | cons p rest ih =>
    by_cases hp : p.1 = k
    · simp [dContains, hp]
    · rw [dGet, if_neg hp] at h
      rw [dContains, if_neg hp]
      exact ih h

theorem dGet_map_set {α β : Type} [DecidableEq α] (d : List (α × β)) (k : α)
    (v : β) (h : dContains d k = true) :
    dGet (d.map (fun p => if p.1 = k then (k, v) else p)) k = some v := by
  induction d with
  | nil => simp [dContains] at h
  | cons p rest ih =>
    by_cases hp : p.1 = k
    · simp [dGet, hp]
    · rw [dContains, if_neg hp] at h
      simp only [List.map_cons, if_neg hp]
      rw [dGet, if_neg hp]
      exact ih h

theorem dGet_append_single {α β : Type} [DecidableEq α] (d : List (α × β))
    (k : α) (v : β) (h : dContains d k = false) :
    dGet (d ++ [(k, v)]) k = some v := by
  induction d with
  | nil => simp [dGet]
  | cons p rest ih =>
    by_cases hp : p.1 = k
    · rw [dContains, if_pos hp] at h
      exact absurd h (by simp)
    · rw [dContains, if_neg hp] at h
      rw [List.cons_append, dGet, if_neg hp]
      exact ih h

theorem dGet_dSet_self {α β : Type} [DecidableEq α] (d : List (α × β))
    (k : α) (v : β) : dGet (dSet d k v) k = some v := by
  cases h : dContains d k with
  | true => simpa [dSet, h] using dGet_map_set d k v h
  | false => simpa [dSet, h] using dGet_append_single d k v h

theorem dGet_dDel_self {α β : Type} [DecidableEq α] (d : List (α × β))
    (k : α) : dGet (dDel d k) k = none := by
  induction d with
  | nil => rfl
  | cons p rest ih =>
    by_cases hp : p.1 = k
    · simpa [dDel, hp] using ih
    · rw [dDel, if_neg hp, dGet, if_neg hp]
      exact ih

theorem dContains_dDel_self {α β : Type} [DecidableEq α] (d : List (α × β))
    (k : α) : dContains (dDel d k) k = false := by
  induction d with
  | nil => rfl
  | cons p rest ih =>
    by_cases hp : p.1 = k
    · simpa [dDel, hp] using ih
    · rw [dDel, if_neg hp, dContains, if_neg hp]
      exact ih

theorem ne_of_mem_dDel {α β : Type} [DecidableEq α] {d : List (α × β)}
    {k : α} {p : α × β} (h : p ∈ dDel d k) : p.1 ≠ k := by
  induction d with
  | nil => simp [dDel] at h
  | cons q rest ih =>
    by_cases hq : q.1 = k
    · rw [dDel, if_pos hq] at h
      exact ih h
    · rw [dDel, if_neg hq] at h
      rcases List.mem_cons.mp h with h' | h'
    
      · rw [h']; exact hq
      · exact ih h'

theorem dSet_isEmpty {α β : Type} [DecidableEq α] (d : List (α × β))
    (k : α) (v : β) : (dSet d k v).isEmpty = false := by
  cases d with
  | nil => simp [dSet, dContains]
  | cons p rest =>
    by_cases h : dContains (p :: rest) k <;> simp [dSet, h, List.isEmpty]

theorem dGet_int_of_strKeys (st : Store) (n : Int) (h : strKeys st = true) :
    dGet st (PyKey.i n) = none := by
  induction st with
  | nil => rfl
  | cons p rest ih =>
    have h1 : isStrKey p.1 = true ∧ strKeys rest = true := by
      simpa [strKeys] using h
    cases hk : p.1 with
    | s v =>
      rw [dGet, hk]
      rw [if_neg (by simp)]
      exact ih h1.2
    | i v =>
      rw [hk] at h1
      simp [isStrKey] at h1

theorem strKeys_dSet (st : Store) (k : PyKey) (g : GuildMap)
    (hk : isStrKey k = true) (h : strKeys st = true) :
    strKeys (dSet st k g) = true := by
  have h' : ∀ p ∈ st, isStrKey p.1 = true := by
    intro p hp
    exact List.all_eq_true.mp h p hp
  apply List.all_eq_true.mpr
  intro p hp
  rw [dSet] at hp
  by_cases hc : dContains st k
  · rw [if_pos hc] at hp
    rcases List.mem_map.mp hp with ⟨q, hq, rfl⟩
    by_cases hqk : q.1 = k
    · simpa [hqk] using hk
    · simpa [hqk] using h' q hq
  · rw [if_neg hc] at hp
    rcases List.mem_append.mp hp with h1 | h1
    · exact h' p h1
    · rcases List.mem_singleton.mp h1 with rfl
      exact hk

theorem strKeys_list_store (st : Store) (gid : Int) (h : strKeys st = true) :
    strKeys (list_playlist st gid).store = true := by
  rw [list_playlist]
  split
  · exact h
  · split <;> exact h

theorem strKeys_create_store (st : Store) (gid : Int) (name : String)
    (h : strKeys st = true) :
    strKeys (create_playlist st gid name).store = true := by
  rw [create_playlist]
  split
  · exact h
  · split
    · dsimp only
      split
      · exact strKeys_dSet st (strKey gid) [] rfl h
      · exact strKeys_dSet _ (strKey gid) _ rfl
          (strKeys_dSet st (strKey gid) [] rfl h)
    · dsimp only
      split
      · exact h
      · exact strKeys_dSet st (strKey gid) _ rfl h

theorem strKeys_delete_store (st : Store) (gid : Int) (name : String)
    (h : strKeys st = true) :
    strKeys (delete_playlist st gid name).store = true := by
  rw [delete_playlist]
  split
  · exact h
  · split
    · exact h
    · split
      · exact h
      · exact strKeys_dSet st (strKey gid) _ rfl h

theorem strKeys_rename_store (st : Store) (gid : Int) (name new_name : String)
    (h : strKeys st = true) :
    strKeys (rename_playlist st gid name new_name).store = true := by
  rw [rename_playlist, dGet_int_of_strKeys st gid h]
  split <;> exact h

theorem strKeys_add_store (resolve : String → Option Track) (st : Store)
    (gid : Int) (name track_url : String) (h : strKeys st = true) :
    strKeys (add_to_playlist resolve st gid name track_url).store = true := by
  rw [add_to_playlist, dGet_int_of_strKeys st gid h]
  exact h

theorem strKeys_remove_store (st : Store) (gid : Int) (name : String)
    (track_id : Int) (h : strKeys st = true) :
    strKeys (remove_from_playlist st gid name track_id).store = true := by
  rw [remove_from_playlist]
  split
  · exact h
  · split
    · exact h
    · split
      · exact h
      · split
        · exact h
        · split
          · exact h
          · split
            all_goals
              dsimp only
              split
              · exact strKeys_dSet st (strKey gid) _ rfl h
              · split <;> exact strKeys_dSet st (strKey gid) _ rfl h

theorem strKeys_decodeStoreEntries (fs : List (String × Json)) (st : Store)
    (h : decodeStoreEntries fs = some st) : strKeys st = true := by
  induction fs generalizing st with
  | nil =>
    rw [decodeStoreEntries] at h
    cases h
    rfl
  | cons p rest ih =>
    obtain ⟨k, j⟩ := p
    cases j with
    | obj fsub =>
      rw [decodeStoreEntries] at h
      cases hg : decodeGuildEntries fsub with
      | none => rw [hg] at h; simp at h
      | some g =>
        cases hr : decodeStoreEntries rest with
        | none => rw [hg, hr] at h; simp at h
        | some s =>
          rw [hg, hr] at h
          simp only [Option.some.injEq] at h
          subst h
          simpa [strKeys, isStrKey] using ih s hr
    | null => simp [decodeStoreEntries] at h
    | bool b => simp [decodeStoreEntries] at h
    | num n => simp [decodeStoreEntries] at h
    | str s => simp [decodeStoreEntries] at h
    | arr xs => simp [decodeStoreEntries] at h

theorem strKeys_of_reachable (st : Store) (h : Reachable st) :
    strKeys st = true := by
  induction h with
  | empty => rfl
  | loaded j st hj =>
    cases j with
    | obj fs => exact strKeys_decodeStoreEntries fs st hj
    | null => simp [json_load] at hj
    | bool b => simp [json_load] at hj
    | num n => simp [json_load] at hj
    | str s => simp [json_load] at hj
    | arr xs => simp [json_load] at hj
  | listed st gid _ ih => exact strKeys_list_store st gid ih
  | created st gid name _ ih => exact strKeys_create_store st gid name ih
  | deleted st gid name _ ih => exact strKeys_delete_store st gid name ih
  | renamed st gid name new_name _ ih =>
      exact strKeys_rename_store st gid name new_name ih
  | added resolve st gid name track_url _ ih =>
      exact strKeys_add_store resolve st gid name track_url ih
  | removed st gid name track_id _ ih =>
      exact strKeys_remove_store st gid name track_id ih

theorem decodeTracks_encode (t : TrackList) :
    decodeTracks (t.map Json.str) = some t := by
  induction t with
  | nil => rfl
  | cons s rest ih => simp [decodeTracks, ih]

theorem decodeGuild_encode (g : GuildMap) :
    decodeGuildEntries
      (g.map (fun q => (q.1, Json.arr (q.2.map Json.str)))) = some g := by
  induction g with
  | nil => rfl
  | cons q rest ih =>
    obtain ⟨k, t⟩ := q
    simp [decodeGuildEntries, decodeTracks_encode, ih]

theorem decodeStore_encode (st : Store) (h : strKeys st = true) :
    decodeStoreEntries (st.map (fun p =>
      (encodeKeyStr p.1,
        Json.obj (p.2.map (fun q => (q.1, Json.arr (q.2.map Json.str)))))))
      = some st := by
  induction st with
  | nil => rfl
  | cons p rest ih =>
    obtain ⟨k, g⟩ := p
    have h1 : isStrKey k = true ∧ strKeys rest = true := by
      simpa [strKeys] using h
    cases k with
    | s v =>
      simp only [List.map_cons, decodeStoreEntries, decodeGuild_encode g,
        ih h1.2]
      rfl
    | i v => simp [isStrKey] at h1

theorem sum_map_durations (ts : List Track) :
    (ts.map (fun song => song.duration)).sum = sumDurations ts := by
  induction ts with
  | nil => rfl
  | cons t rest ih => simp [sumDurations, ih]

/-- C1: the spec says `removeTrack(g, p, i)` fails with `IndexOutOfRange`
for every index `i` outside `[1, track_count]` and leaves the track list
unchanged.  The code's boundary check, the chained comparison
`0 > track_id - 1 > len(...)`, is never true, so on the two-track playlist
`x = [u1, u2]` the out-of-range index 0 is accepted: Python's negative
indexing deletes the LAST track `u2`, the truncated store is saved, and a
success message is sent. -/
theorem removeTrack_out_of_range_not_rejected :
    remove_from_playlist [(PyKey.s "1", [("x", ["u1", "u2"])])] 1 "x" 0
      = ⟨[(PyKey.s "1", [("x", ["u1"])])], true,
          .sent "Removed u1 from the playlist x."⟩ := by decide

/-- C2: the spec says `removeTrack(g, p, i)` returns the track reference
that was at position `i` before the removal.  The code's success message
re-reads `self.playlists[guild_id][name][track_id - 1]` AFTER the deletion:
removing index 1 from `x = [u1, u2]` deletes `u1` but reports `u2`, the
track that shifted into position 1. -/
theorem removeTrack_reports_wrong_track :
    remove_from_playlist [(PyKey.s "1", [("x", ["u1", "u2"])])] 1 "x" 1
      = ⟨[(PyKey.s "1", [("x", ["u2"])])], true,
          .sent "Removed u2 from the playlist x."⟩ := by decide

/-- C3: the spec says `create(g, n)` fails with `AlreadyExists` when `n` is
already a playlist of `g` and otherwise preserves every existing playlist
of `g`.  The code checks `name in self.playlists` against the OUTER dict of
guild-id keys, so re-creating the existing playlist `x` of guild 1 is not
rejected; and because `self.playlists.get(interaction.guild_id)` uses the
raw int key while the stored keys are strings, the guard is always falsy
and `self.playlists[guild_id] = {}` wipes the guild's existing playlists:
`x`'s track `u` is lost. -/
theorem create_duplicate_not_rejected_and_wipes_guild :
    create_playlist [(PyKey.s "1", [("x", ["u"])])] 1 "x"
      = ⟨[(PyKey.s "1", [("x", [])])], true,
          .sent "Created playlist x."⟩ := by decide

/-- C4: the spec says `delete(g, n)` removes an existing playlist and
persists.  The code's guard `if name not in self.playlists:` tests the
playlist name against the OUTER dict of guild-id keys, so deleting the
existing playlist `x` of guild 1 reports "Playlist does not exist." and
removes nothing. -/
theorem delete_existing_playlist_reports_not_found :
    delete_playlist [(PyKey.s "1", [("x", ["u"])])] 1 "x"
      = ⟨[(PyKey.s "1", [("x", ["u"])])], false,
          .sent "Playlist does not exist."⟩ := by decide

/-- C5: the spec says `rename(g, a, b)` moves the entry from key `a` to
key `b`.  The code's guard `if name not in self.playlists:` tests `a`
against the OUTER dict of guild-id keys, so renaming the existing playlist
`a` of guild 1 reports "Playlist does not exist." and moves nothing (and
had the guard passed, the int-keyed lookups
`self.playlists[interaction.guild_id]` would raise `KeyError`). -/
theorem rename_existing_playlist_reports_not_found :
    rename_playlist [(PyKey.s "1", [("a", ["u"])])] 1 "a" "b"
      = ⟨[(PyKey.s "1", [("a", ["u"])])], false,
          .sent "Playlist does not exist."⟩ := by decide

/-- C6: the spec says `addTrack(g, p, u)` with a resolver-rejected URL
fails with `TrackNotFound` (and appends the raw URL on success).  The code
indexes the store with the raw int `interaction.guild_id` while the stored
keys are strings, so on a store holding playlist `x` for guild 1 the very
first lookup raises `KeyError` — before the resolver is even called, for
any resolver answer. -/
theorem addTrack_rejected_url_raises_key_error :
    add_to_playlist (fun _ => none) [(PyKey.s "1", [("x", ["u"])])] 1 "x" "bad"
      = ⟨[(PyKey.s "1", [("x", ["u"])])], false, .raised .keyError⟩ := by decide

/-- C7: the spec says `list(g)` never fails and returns the empty sequence
when `g` has no playlists, including when other guilds do.  The code only
guards against the WHOLE store being empty; when guild 1 has playlists and
guild 2 does not, listing guild 2 reaches `self.playlists[guild_id]` and
raises `KeyError`. -/
theorem list_other_guild_raises_key_error :
    list_playlist [(PyKey.s "1", [("x", ["u"])])] 2
      = ⟨[(PyKey.s "1", [("x", ["u"])])], false, .raised .keyError⟩ := by decide

/-- C8: for every guild entry `g` whose playlist `name` has exactly one
track, `removeTrack(g, name, 1)` deletes the playlist entirely from the
guild's mapping (the in-place deletion and save happen before the faulty
success-message lookup), and a subsequent `list` for that guild no longer
reports the playlist. -/
theorem remove_last_track_deletes_playlist (st : Store) (gid : Int)
    (name u : String) (g : GuildMap)
    (hg : dGet st (strKey gid) = some g)
    (hp : dGet g name = some [u]) :
    ∃ g' : GuildMap,
      dGet (remove_from_playlist st gid name 1).store (strKey gid) = some g'
      ∧ dContains g' name = false
      ∧ list_playlist (remove_from_playlist st gid name 1).store gid
          = ⟨(remove_from_playlist st gid name 1).store, false,
              .sentListEmbed (g'.map (fun p => (p.1, p.2.length)))⟩
      ∧ ∀ e ∈ g'.map (fun p => (p.1, p.2.length)), e.1 ≠ name := by
  have hc : dContains g name = true := dContains_of_dGet hp
  have hres : remove_from_playlist st gid name 1
      = ⟨dSet st (strKey gid) (dDel (dSet g name []) name), true,
          .raised .keyError⟩ := by
    rw [remove_from_playlist, hg]
    simp only [hc, hp]
    norm_num [pyDelAt, pyIdx, dGet_dDel_self]
  rw [hres]
  dsimp only
  refine ⟨dDel (dSet g name []) name, dGet_dSet_self _ _ _,
    dContains_dDel_self _ _, ?_, ?_⟩
  · rw [list_playlist, dSet_isEmpty]
    simp [dGet_dSet_self]
  · intro e he
    rcases List.mem_map.mp he with ⟨p, hpmem, rfl⟩
    simpa using ne_of_mem_dDel hpmem

/-- Witness for C8 on the concrete store where guild 1 has the single
playlist `x` holding one track `u`. -/
theorem remove_last_track_deletes_playlist_witness :
    ∃ g' : GuildMap,
      dGet (remove_from_playlist [(PyKey.s "1", [("x", ["u"])])] 1 "x" 1).store
          (strKey 1) = some g'
      ∧ dContains g' "x" = false
      ∧ list_playlist
          (remove_from_playlist [(PyKey.s "1", [("x", ["u"])])] 1 "x" 1).store 1
          = ⟨(remove_from_playlist [(PyKey.s "1", [("x", ["u"])])] 1 "x" 1).store,
              false, .sentListEmbed (g'.map (fun p => (p.1, p.2.length)))⟩
      ∧ ∀ e ∈ g'.map (fun p => (p.1, p.2.length)), e.1 ≠ "x" :=
  remove_last_track_deletes_playlist [(PyKey.s "1", [("x", ["u"])])] 1 "x" "u"
    [("x", ["u"])] (by decide) (by decide)

/-- C9: for every store reachable through the service's operations, saving
it (`json.dump`) and loading it back (`json.load` plus the expected-shape
reading) reproduces a structurally identical store — the save-then-load
round-trip law.  Reachable stores have only string guild keys, which JSON
object keys reproduce exactly. -/
theorem save_load_roundtrip (st : Store) (h : Reachable st) :
    json_load (json_dump st) = some st := by
  have hs := strKeys_of_reachable st h
  simpa [json_load, json_dump] using decodeStore_encode st hs

/-- Witness for C9 on the store produced by one `create` from the empty
store. -/
theorem save_load_roundtrip_witness :
    json_load (json_dump (create_playlist [] 1 "mix").store)
      = some (create_playlist [] 1 "mix").store :=
  save_load_roundtrip _ (Reachable.created [] 1 "mix" Reachable.empty)

/-- C10: for every value of the enriched `Playlist` data-model type, the
`duration` property equals the sum of the `duration` fields of its tracks,
and equals 0 when the track list is empty. -/
theorem playlist_duration_is_sum (p : Playlist) :
    p.duration = sumDurations p.tracks ∧ (p.tracks = [] → p.duration = 0) :=
  ⟨sum_map_durations p.tracks, fun h => by simp [Playlist.duration, h]⟩

/-- Witness for C10 on a concrete empty playlist. -/
theorem playlist_duration_is_sum_witness :
    (Playlist.mk "mix" "url" []).duration
        = sumDurations (Playlist.mk "mix" "url" []).tracks
    ∧ ((Playlist.mk "mix" "url" []).tracks = []
        → (Playlist.mk "mix" "url" []).duration = 0) :=
  playlist_duration_is_sum (Playlist.mk "mix" "url" [])
